import Mathlib

/-!
Shallow embedding of the local crash-collection test server defined in
`spec-main/api-crash-reporter-spec.ts` (the `startServer` closure, lines
394-435 and 725-727, together with the helpers it captures).

The server keeps a record log `crashes`, an event emitter with one-shot
`crash` listeners (`waitForCrash`), and an HTTP handler that parses each
request as a multipart form, pushes the decoded fields onto the log,
throws on a decode error, and otherwise responds with a fixed report id,
then (in the response-flush callback) checks the report, destroys the
socket and emits the `crash` event.  Module-level state `crashReporterPort`
fixes the bound port after the first call.
-/

namespace CrashServer

/-- One decoded multipart form: a list of (field name, field value) pairs,
as delivered by the multipart decoder. -/
abbrev Fields := List (String × String)

/-- A multipart decode failure (the `error` argument of `form.parse`). -/
structure ParseError where
  message : String
deriving DecidableEq, Repr

/-- An incoming upload as the server sees it: the submitted form fields and
whether the request body is well-formed multipart. -/
structure Upload where
  formFields : Fields
  wellFormed : Bool
deriving DecidableEq, Repr

/-- Modelled from the spec: the multipart decoder (`multiparty.Form.parse`
in the source) is an external library, not code of this repository.  Per
the spec, a well-formed body decodes to exactly the submitted form fields
(string values; absent fields simply absent), and a malformed body (e.g.
missing multipart boundary) fails with a `ParseError`. -/
def parseMultipart (u : Upload) : Except ParseError Fields :=
  if u.wellFormed then .ok u.formFields
  else .error ⟨"missing multipart boundary"⟩

/-- An HTTP response as written by `res.end` (`status` defaults to 200 in
the source; `body` is the first argument of `res.end`). -/
structure Response where
  status : Nat
  body : String
deriving DecidableEq, Repr

/-- The report id constant from line 412 of the source. -/
def reportId : String := "abc-123-def-456-abc-789-abc-123-abcd"

/-- Observable actions of one request handling, in the order the source
performs them. -/
inductive Event where
  | appendRecord : Option Fields → Event
  | writeResponse : Response → Event
  | checkReport : String → Event
  | destroySocket : Event
  | resolveWaiter : Nat → Fields → Event
  | throwError : ParseError → Event
deriving DecidableEq, Repr

/-- Whether an event is the writing of an HTTP response. -/
def isResponseWrite : Event → Bool
  | .writeResponse _ => true
  | _ => false

/-- The per-server mutable state captured by the `startServer` closure:
the `crashes` array, and the emitter's one-shot `crash` listeners.  Each
`waitForCrash` promise is identified by a fresh id; `resolutions` records,
in order, which promise was resolved with which crash record.  An entry of
`crashes` is `none` when the pushed value was the undefined `fields` of a
failed parse. -/
structure ServerState where
  crashes : List (Option Fields)
  nextWaiterId : Nat
  waiters : List Nat
  resolutions : List (Nat × Fields)
deriving DecidableEq, Repr

/-- The state right after `startServer` sets up its locals (lines 396-398). -/
def initServer : ServerState := ⟨[], 0, [], []⟩

/-- `getCrashes` (line 397): returns the record log. -/
def getCrashes (s : ServerState) : List (Option Fields) := s.crashes

/-- `waitForCrash` (lines 399-405): registers a one-shot `crash` listener
on the emitter and returns the id of the new pending promise. -/
def waitForCrash (s : ServerState) : ServerState × Nat :=
  ({ s with
      nextWaiterId := s.nextWaiterId + 1
      waiters := s.waiters ++ [s.nextWaiterId] },
   s.nextWaiterId)

/-- The request handler (lines 407-419).  `form.parse` hands the callback
`(error, fields)`; the callback pushes `fields` onto `crashes`
unconditionally, then throws on error; on success it ends the response
with `reportId` and, in the flush callback, awaits `checkReport reportId`,
destroys the socket and emits `crash` with the decoded fields, which
resolves every pending one-shot listener with that record and removes it. -/
def handleUpload (s : ServerState) (u : Upload) : ServerState × List Event :=
  match parseMultipart u with
  | .error e =>
      ({ s with crashes := s.crashes ++ [none] },
       [.appendRecord none, .throwError e])
  | .ok fields =>
      ({ s with
          crashes := s.crashes ++ [some fields]
          waiters := []
          resolutions := s.resolutions ++ s.waiters.map (fun id => (id, fields)) },
       [.appendRecord (some fields),
        .writeResponse ⟨200, reportId⟩,
        .checkReport reportId,
        .destroySocket]
       ++ s.waiters.map (fun id => .resolveWaiter id fields))

/-- One interaction with a running server: an incoming upload, or a call
to `waitForCrash`. -/
inductive Action where
  | upload : Upload → Action
  | wait : Action
deriving DecidableEq, Repr

/-- Effect of one action on the server state. -/
def step (s : ServerState) : Action → ServerState
  | .upload u => (handleUpload s u).1
  | .wait => (waitForCrash s).1

/-- Sequential execution of a list of actions. -/
def run (s : ServerState) : List Action → ServerState
  | [] => s
  | a :: as => run (step s a) as

/-- The decoded fields of the first successfully decoded upload of an
action sequence, if any. -/
def firstSuccessFields : List Action → Option Fields
  | [] => none
  | .wait :: rest => firstSuccessFields rest
  | .upload u :: rest =>
      match parseMultipart u with
      | .ok f => some f
      | .error _ => firstSuccessFields rest

/-- Book-keeping invariant of a server state: every pending listener id
and every already-resolved id was issued before `nextWaiterId`. -/
def WF (s : ServerState) : Prop :=
  (∀ id ∈ s.waiters, id < s.nextWaiterId) ∧
  (∀ p ∈ s.resolutions, p.1 < s.nextWaiterId)

/-! ### Module-level start logic

`startServer` (lines 421-435) listens on the module-level
`crashReporterPort` (initially 0, i.e. an OS-assigned ephemeral port),
reads back the concrete bound port, and — only when `crashReporterPort`
was still 0 — calls `crashReporter.start` with that port in the submit
URL and fixes `crashReporterPort` to it.  The OS's ephemeral port
assignment is a parameter `os`: the k-th listen on port 0 gets port
`os k`. -/

/-- The options passed to `crashReporter.start` (lines 430-433). -/
structure CrashReporterConfig where
  companyName : String
  submitURL : String
deriving DecidableEq, Repr

/-- The module-level state of `api-crash-reporter-spec.ts`: the
`crashReporterPort` variable (line 394), and the crash-reporter
configuration installed by `crashReporter.start`, with a count of how
often `crashReporter.start` was invoked. -/
structure GlobalState where
  crashReporterPort : Nat
  reporterConfig : Option CrashReporterConfig
  reporterStarts : Nat
deriving DecidableEq, Repr

/-- Module load time: `crashReporterPort = 0`, reporter unconfigured. -/
def initialGlobal : GlobalState := ⟨0, none, 0⟩

/-- The concrete port bound by `server.listen requested`: port 0 requests
an OS-assigned ephemeral port (`os k` on the k-th such listen), any other
requested port is bound as given. -/
def listenPort (os : Nat → Nat) (k requested : Nat) : Nat :=
  if requested = 0 then os k else requested

/-- The port-relevant effect of one `startServer` call (lines 421-435):
listen on `crashReporterPort`, read the bound port, and iff
`crashReporterPort` is still 0, invoke `crashReporter.start` with the
Umbrella Corporation options and fix `crashReporterPort` to the bound
port.  Returns the new global state and the bound port. -/
def startServer (os : Nat → Nat) (k : Nat) (g : GlobalState) : GlobalState × Nat :=
  let port := listenPort os k g.crashReporterPort
  if g.crashReporterPort = 0 then
    ({ crashReporterPort := port
       reporterConfig := some ⟨"Umbrella Corporation", "http://127.0.0.1:" ++ toString port⟩
       reporterStarts := g.reporterStarts + 1 },
     port)
  else
    (g, port)

/-- Repeated `startServer` calls, with the OS call indices `ks`; returns
the final global state and the bound ports in call order. -/
def runStarts (os : Nat → Nat) (g : GlobalState) : List Nat → GlobalState × List Nat
  | [] => (g, [])
  | k :: ks =>
      let r := startServer os k g
      let rest := runStarts os r.1 ks
      (rest.1, r.2 :: rest.2)

/-! ### Shutdown -/

/-- A shutdown failure. -/
structure StopError where
  message : String
deriving DecidableEq, Repr

/-- The listening server handle: its bound port and whether the listener
is still accepting connections (`listening = false` means the port has
been released). -/
structure Listener where
  boundPort : Nat
  listening : Bool
deriving DecidableEq, Repr

/-- Modelled from the spec: the `stop()` operation of the server handle.
In the source, shutdown is `server.close()` (line 725), a method of
Node's `http.Server` — external library code not in this repository.
The spec: "Closes the listener and releases the bound port. Idempotent:
calling twice must not fail." -/
def stop (l : Listener) : Except StopError Listener :=
  .ok { l with listening := false }

/-! ### Concrete inputs used by witnesses -/

/-- A malformed upload (body is not well-formed multipart). -/
def badUpload : Upload := ⟨[], false⟩

/-- A well-formed upload carrying the fields of the spec's single-crash
round-trip scenario. -/
def goodUpload : Upload := ⟨[("prod", "Electron"), ("ver", "1.2.3")], true⟩

/-! ### Helper lemmas -/

lemma filter_fst_eq_nil_of_lt (w : Nat) (l : List (Nat × Fields))
    (h : ∀ p ∈ l, p.1 < w) : l.filter (fun p => p.1 == w) = [] := by
  refine List.filter_eq_nil_iff.mpr ?_
  intro p hp
  have := h p hp
  simp only [beq_iff_eq]
  omega

lemma filter_pair_map_of_not_mem (w : Nat) (f : Fields) (l : List Nat)
    (h : w ∉ l) :
    (l.map fun id => (id, f)).filter (fun p => p.1 == w) = [] := by
  refine List.filter_eq_nil_iff.mpr ?_
  intro p hp
  rcases List.mem_map.mp hp with ⟨id, hid, rfl⟩
  simp only [beq_iff_eq]
  intro h2
  exact h (h2 ▸ hid)

lemma filter_pair_map_count_one (w : Nat) (f : Fields) (l : List Nat)
    (h : l.count w = 1) :
    (l.map fun id => (id, f)).filter (fun p => p.1 == w) = [(w, f)] := by
  induction l with
  | nil => simp at h
  | cons a t ih =>
      by_cases haw : a = w
      · subst haw
        have ht : t.count a = 0 := by
          have := List.count_cons_self a t
          omega
        have hnm : a ∉ t := List.count_eq_zero.mp ht
        simp only [List.map_cons, List.filter_cons]
        simp only [beq_self_eq_true, if_pos]
        rw [filter_pair_map_of_not_mem a f t hnm]
      · have hc : t.count w = 1 := by
          rw [List.count_cons] at h
          simp only [beq_iff_eq] at h
          rw [if_neg haw] at h
          omega
        simp only [List.map_cons, List.filter_cons]
        have : ((a, f).1 == w) = false := by
          simp only [beq_eq_false_iff_ne]
          exact haw
        rw [this]
        simp only [if_neg Bool.false_ne_true]
        exact ih hc

lemma count_eq_zero_of_forall_lt (w : Nat) (l : List Nat)
    (h : ∀ id ∈ l, id < w) : l.count w = 0 := by
  refine List.count_eq_zero.mpr ?_
  intro hmem
  exact absurd (h w hmem) (lt_irrefl w)

lemma crashes_mono_step (s : ServerState) (a : Action) (x : Option Fields)
    (h : x ∈ s.crashes) : x ∈ (step s a).crashes := by
  cases a with
  | wait => exact h
  | upload u =>
      simp only [step, handleUpload]
      cases parseMultipart u with
      | error e => exact List.mem_append_left _ h
      | ok f => exact List.mem_append_left _ h

lemma crashes_mono_run (acts : List Action) (s : ServerState) (x : Option Fields)
    (h : x ∈ s.crashes) : x ∈ (run s acts).crashes := by
  induction acts generalizing s with
  | nil => exact h
  | cons a rest ih => exact ih (step s a) (crashes_mono_step s a x h)

/-- A listener id that is no longer pending is never resolved again: its
resolution entries are unchanged by any further actions, it never becomes
pending again, and the id counter stays above it. -/
lemma resolved_stable (w : Nat) (acts : List Action) :
    ∀ s : ServerState, w ∉ s.waiters → w < s.nextWaiterId →
    ((run s acts).resolutions.filter (fun p => p.1 == w) =
      s.resolutions.filter (fun p => p.1 == w)) ∧
    w ∉ (run s acts).waiters ∧ w < (run s acts).nextWaiterId := by
  induction acts with
  | nil => intro s h1 h2; exact ⟨rfl, h1, h2⟩
  | cons a rest ih =>
      intro s h1 h2
      cases a with
      | wait =>
          have hw : w ∉ s.waiters ++ [s.nextWaiterId] := by
            intro hmem
            rcases List.mem_append.mp hmem with h | h
            · exact h1 h
            · simp only [List.mem_singleton] at h; omega
          have hn : w < s.nextWaiterId + 1 := by omega
          exact ih { s with
              nextWaiterId := s.nextWaiterId + 1
              waiters := s.waiters ++ [s.nextWaiterId] } hw hn
      | upload u =>
          show _ ∧ _ ∧ _
          cases hp : parseMultipart u with
          | error e =>
              have hstep : step s (.upload u) = { s with crashes := s.crashes ++ [none] } := by
                simp only [step, handleUpload, hp]
              rw [run, hstep]
              exact ih _ h1 h2
          | ok f =>
              have hstep : step s (.upload u) = { s with
                  crashes := s.crashes ++ [some f]
                  waiters := []
                  resolutions := s.resolutions ++ s.waiters.map (fun id => (id, f)) } := by
                simp only [step, handleUpload, hp]
              rw [run, hstep]
              have := ih { s with
                  crashes := s.crashes ++ [some f]
                  waiters := []
                  resolutions := s.resolutions ++ s.waiters.map (fun id => (id, f)) }
                (by simp) h2
              refine ⟨?_, this.2⟩
              rw [this.1]
              simp only [List.filter_append]
              rw [filter_pair_map_of_not_mem w f s.waiters h1]
              simp

/-- A pending listener id with a single registration is resolved exactly
once by the rest of the execution, namely with the fields of the first
successfully decoded upload, and that record ends up in the log. -/
lemma pending_resolves (w : Nat) (acts : List Action) :
    ∀ (s : ServerState) (f : Fields),
    s.waiters.count w = 1 → w < s.nextWaiterId →
    firstSuccessFields acts = some f →
    ((run s acts).resolutions.filter (fun p => p.1 == w) =
      s.resolutions.filter (fun p => p.1 == w) ++ [(w, f)]) ∧
    some f ∈ (run s acts).crashes := by
  induction acts with
  | nil => intro s f _ _ hf; simp [firstSuccessFields] at hf
  | cons a rest ih =>
      intro s f hc hlt hf
      cases a with
      | wait =>
          have hc2 : (s.waiters ++ [s.nextWaiterId]).count w = 1 := by
            rw [List.count_append]
            have : ([s.nextWaiterId] : List Nat).count w = 0 := by
              refine List.count_eq_zero.mpr ?_
              simp only [List.mem_singleton]
              omega
            omega
          have hf2 : firstSuccessFields rest = some f := hf
          have hlt2 : w < s.nextWaiterId + 1 := by omega
          exact ih { s with
              nextWaiterId := s.nextWaiterId + 1
              waiters := s.waiters ++ [s.nextWaiterId] } f hc2 hlt2 hf2
      | upload u =>
          cases hp : parseMultipart u with
          | error e =>
              have hstep : step s (.upload u) = { s with crashes := s.crashes ++ [none] } := by
                simp only [step, handleUpload, hp]
              have hf2 : firstSuccessFields rest = some f := by
                simpa only [firstSuccessFields, hp] using hf
              rw [run, hstep]
              exact ih _ f hc hlt hf2
          | ok f0 =>
              have hff : f0 = f := by
                have : firstSuccessFields (Action.upload u :: rest) = some f0 := by
                  simp only [firstSuccessFields, hp]
                rw [hf] at this
                exact (Option.some.injEq ..).mp this.symm
              subst hff
              have hstep : step s (.upload u) = { s with
                  crashes := s.crashes ++ [some f0]
                  waiters := []
                  resolutions := s.resolutions ++ s.waiters.map (fun id => (id, f0)) } := by
                simp only [step, handleUpload, hp]
              rw [run, hstep]
              have hstable := resolved_stable w rest { s with
                  crashes := s.crashes ++ [some f0]
                  waiters := []
                  resolutions := s.resolutions ++ s.waiters.map (fun id => (id, f0)) }
                (by simp) hlt
              refine ⟨?_, ?_⟩
              · rw [hstable.1]
                simp only [List.filter_append]
                rw [filter_pair_map_count_one w f0 s.waiters hc]
              · refine crashes_mono_run rest _ _ ?_
                exact List.mem_append_right _ (List.mem_singleton.mpr rfl)

/-- Once `crashReporterPort` is fixed to a nonzero port, every further
`startServer` call leaves the global state unchanged and binds that same
port. -/
lemma runStarts_fixed (os : Nat → Nat) (ks : List Nat) :
    ∀ g : GlobalState, g.crashReporterPort ≠ 0 →
    runStarts os g ks = (g, List.replicate ks.length g.crashReporterPort) := by
  induction ks with
  | nil => intro g _; rfl
  | cons k ks ih =>
      intro g h
      have hstart : startServer os k g = (g, g.crashReporterPort) := by
        simp only [startServer, listenPort, if_neg h]
      simp only [runStarts, hstart]
      rw [ih g h]
      rfl

/-- The effect of the first `startServer` call, made while
`crashReporterPort` is still 0. -/
lemma startServer_first (os : Nat → Nat) (k : Nat) :
    startServer os k initialGlobal =
      ({ crashReporterPort := os k
         reporterConfig := some ⟨"Umbrella Corporation", "http://127.0.0.1:" ++ toString (os k)⟩
         reporterStarts := 1 }, os k) := by
  simp only [startServer, listenPort, initialGlobal]
  rfl

/-! ### Claim theorems -/

/-- Claim C7: `stop()` is idempotent: calling it twice on the same server
does not fail, throw, or hang, and after the first call the listener is
closed and the bound port released. -/
theorem c7_stop_idempotent (l : Listener) :
    stop l = .ok ⟨l.boundPort, false⟩ ∧
    Except.bind (stop l) stop = stop l :=
  ⟨rfl, rfl⟩

/-- Claim C4: for every valid (well-decoded) multipart upload, the length
of `getCrashes()` increases by exactly one, and the newly appended record
exactly matches the submitted form fields (string values; absent fields
absent). -/
theorem c4_record_fidelity (s : ServerState) (u : Upload)
    (h : u.wellFormed = true) :
    getCrashes (handleUpload s u).1 = getCrashes s ++ [some u.formFields] ∧
    (getCrashes (handleUpload s u).1).length = (getCrashes s).length + 1 := by
  have hp : parseMultipart u = .ok u.formFields := by
    simp [parseMultipart, h]
  constructor
  · simp only [getCrashes, handleUpload, hp]
  · simp [getCrashes, handleUpload, hp]

/-- Witness for C4: the round-trip upload appends exactly its own fields. -/
theorem c4_record_fidelity_witness :
    goodUpload.wellFormed = true ∧
    (getCrashes (handleUpload initServer goodUpload).1 =
        getCrashes initServer ++ [some goodUpload.formFields] ∧
      (getCrashes (handleUpload initServer goodUpload).1).length =
        (getCrashes initServer).length + 1) :=
  ⟨rfl, c4_record_fidelity initServer goodUpload rfl⟩

/-- Claim C5: `getCrashes()` returns the full record log with insertion
order preserved: for a sequence of uploads submitted with no concurrent
waiter, the records appear in the order their uploads completed decoding,
each one exactly the fields of its upload (never partially written). -/
theorem c5_log_ordering (s : ServerState) (us : List Upload)
    (h : ∀ u ∈ us, u.wellFormed = true) :
    getCrashes (run s (us.map Action.upload)) =
      getCrashes s ++ us.map (fun u => some u.formFields) := by
  induction us generalizing s with
  | nil => simp [run, getCrashes]
  | cons u rest ih =>
      have hu : u.wellFormed = true := h u (List.mem_cons_self u rest)
      have hp : parseMultipart u = .ok u.formFields := by simp [parseMultipart, hu]
      have hstep : step s (.upload u) = { s with
          crashes := s.crashes ++ [some u.formFields]
          waiters := []
          resolutions := s.resolutions ++ s.waiters.map (fun id => (id, u.formFields)) } := by
        simp only [step, handleUpload, hp]
      simp only [List.map_cons, run, hstep]
      rw [ih _ (fun v hv => h v (List.mem_cons_of_mem u hv))]
      simp [getCrashes]

/-- Witness for C5: two uploads land in the log in submission order. -/
theorem c5_log_ordering_witness :
    (∀ u ∈ [goodUpload, Upload.mk [("k", "v")] true], u.wellFormed = true) ∧
    getCrashes (run initServer ([goodUpload, Upload.mk [("k", "v")] true].map Action.upload)) =
      getCrashes initServer ++
        [goodUpload, Upload.mk [("k", "v")] true].map (fun u => some u.formFields) :=
  ⟨by decide, c5_log_ordering initServer [goodUpload, Upload.mk [("k", "v")] true] (by decide)⟩

/-- Claim C6: every successful upload is answered with HTTP 200 whose body
is the `ReportId`, exactly one response is written, and the identifier the
server checks against (`checkReport`) is the very identifier echoed in the
response body. -/
theorem c6_report_id_stable (s : ServerState) (u : Upload) (f : Fields)
    (h : parseMultipart u = .ok f) :
    (handleUpload s u).2.filter isResponseWrite = [.writeResponse ⟨200, reportId⟩] ∧
    (∀ r : Response, Event.writeResponse r ∈ (handleUpload s u).2 →
      r.status = 200 ∧ r.body = reportId) ∧
    (∀ i : String, Event.checkReport i ∈ (handleUpload s u).2 → i = reportId) := by
  have htr : (handleUpload s u).2 =
      [.appendRecord (some f), .writeResponse ⟨200, reportId⟩,
       .checkReport reportId, .destroySocket]
      ++ s.waiters.map (fun id => Event.resolveWaiter id f) := by
    simp only [handleUpload, h]
  rw [htr]
  refine ⟨?_, ?_, ?_⟩
  · rw [List.filter_append]
    have hmap : (s.waiters.map fun id => Event.resolveWaiter id f).filter isResponseWrite = [] := by
      refine List.filter_eq_nil_iff.mpr ?_
      intro e he
      rcases List.mem_map.mp he with ⟨id, _, rfl⟩
      simp [isResponseWrite]
    rw [hmap]
    rfl
  · intro r hr
    rcases List.mem_append.mp hr with hr | hr
    · simp only [List.mem_cons, List.not_mem_nil, or_false] at hr
      rcases hr with hr | hr | hr | hr <;> first
        | (cases hr; exact ⟨rfl, rfl⟩)
        | (exact absurd hr (by simp))
    · rcases List.mem_map.mp hr with ⟨id, _, hid⟩
      exact absurd hid (by simp)
  · intro i hi
    rcases List.mem_append.mp hi with hi | hi
    · simp only [List.mem_cons, List.not_mem_nil, or_false] at hi
      rcases hi with hi | hi | hi | hi <;> first
        | (cases hi; rfl)
        | (exact absurd hi (by simp))
    · rcases List.mem_map.mp hi with ⟨id, _, hid⟩
      exact absurd hid (by simp)

/-- Witness for C6 at the round-trip upload. -/
theorem c6_report_id_stable_witness :
    parseMultipart goodUpload = .ok goodUpload.formFields ∧
    ((handleUpload initServer goodUpload).2.filter isResponseWrite =
        [.writeResponse ⟨200, reportId⟩] ∧
      (∀ r : Response, Event.writeResponse r ∈ (handleUpload initServer goodUpload).2 →
        r.status = 200 ∧ r.body = reportId) ∧
      (∀ i : String, Event.checkReport i ∈ (handleUpload initServer goodUpload).2 →
        i = reportId)) :=
  ⟨rfl, c6_report_id_stable initServer goodUpload goodUpload.formFields rfl⟩

/-- Counterexample to claim C1 as stated: on a decode failure the handler
pushes the (undefined) decode result onto the record log before throwing,
so a record IS appended for that request and it DOES appear in
`getCrashes()`: from the empty log, the malformed upload leaves the log
`[none]`, not `[]`. -/
theorem c1_counterexample_failed_parse_is_logged :
    parseMultipart badUpload = .error ⟨"missing multipart boundary"⟩ ∧
    getCrashes initServer = [] ∧
    getCrashes (handleUpload initServer badUpload).1 = [none] ∧
    getCrashes (handleUpload initServer badUpload).1 ≠ getCrashes initServer := by
  refine ⟨rfl, rfl, rfl, ?_⟩
  simp [getCrashes, handleUpload, parseMultipart, badUpload, initServer]

/-- Claim C1 as amended: on every decode failure the `ParseError` is
propagated (the throw is observable), no response is written and no
waiter is resolved, but the decode result is still appended to the record
log (as the pushed `fields` of the failed parse) before the throw; the
waiter slots are untouched and a subsequent well-formed upload still
succeeds and is appended after the failure entry. -/
theorem c1_amended_parse_failure (s : ServerState) (u : Upload) (e : ParseError)
    (h : parseMultipart u = .error e) :
    Event.throwError e ∈ (handleUpload s u).2 ∧
    (∀ r : Response, Event.writeResponse r ∉ (handleUpload s u).2) ∧
    (∀ (w : Nat) (g : Fields), Event.resolveWaiter w g ∉ (handleUpload s u).2) ∧
    (handleUpload s u).1.crashes = s.crashes ++ [none] ∧
    (handleUpload s u).1.waiters = s.waiters ∧
    (handleUpload s u).1.resolutions = s.resolutions ∧
    (∀ u2 : Upload, u2.wellFormed = true →
      getCrashes (handleUpload (handleUpload s u).1 u2).1 =
        s.crashes ++ [none, some u2.formFields]) := by
  have htr : handleUpload s u =
      ({ s with crashes := s.crashes ++ [none] },
       [.appendRecord none, .throwError e]) := by
    simp only [handleUpload, h]
  simp only [htr]
  refine ⟨by simp, ?_, ?_, by simp, by simp, by simp, ?_⟩
  · intro r hr
    simp at hr
  · intro w g hg
    simp at hg
  · intro u2 h2
    have hp2 : parseMultipart u2 = .ok u2.formFields := by simp [parseMultipart, h2]
    simp [getCrashes, handleUpload, hp2]

/-- Witness for the amended C1 at the malformed upload `badUpload`. -/
theorem c1_amended_parse_failure_witness :
    parseMultipart badUpload = .error ⟨"missing multipart boundary"⟩ ∧
    (Event.throwError ⟨"missing multipart boundary"⟩ ∈ (handleUpload initServer badUpload).2 ∧
      (∀ r : Response, Event.writeResponse r ∉ (handleUpload initServer badUpload).2) ∧
      (∀ (w : Nat) (g : Fields), Event.resolveWaiter w g ∉ (handleUpload initServer badUpload).2) ∧
      (handleUpload initServer badUpload).1.crashes = initServer.crashes ++ [none] ∧
      (handleUpload initServer badUpload).1.waiters = initServer.waiters ∧
      (handleUpload initServer badUpload).1.resolutions = initServer.resolutions ∧
      (∀ u2 : Upload, u2.wellFormed = true →
        getCrashes (handleUpload (handleUpload initServer badUpload).1 u2).1 =
          initServer.crashes ++ [none, some u2.formFields])) :=
  ⟨rfl, c1_amended_parse_failure initServer badUpload ⟨"missing multipart boundary"⟩ rfl⟩

/-- Claim C2: for every successful upload, the response (body = report id)
is written before the socket is destroyed, and only after both is any
pending waiter resolved, with the newly appended record; with no pending
waiter nothing is resolved and the record is still in the log, retrievable
after any further actions. -/
theorem c2_respond_then_destroy_then_notify (s : ServerState) (u : Upload) (f : Fields)
    (h : parseMultipart u = .ok f) :
    ∃ iResp iDestroy : Nat,
      (handleUpload s u).2[iResp]? = some (.writeResponse ⟨200, reportId⟩) ∧
      (handleUpload s u).2[iDestroy]? = some .destroySocket ∧
      iResp < iDestroy ∧
      (∀ (n w : Nat) (g : Fields),
        (handleUpload s u).2[n]? = some (.resolveWaiter w g) → iDestroy < n ∧ g = f) ∧
      (handleUpload s u).1.crashes = s.crashes ++ [some f] ∧
      (s.waiters = [] →
        ∀ (n w : Nat) (g : Fields),
          (handleUpload s u).2[n]? ≠ some (.resolveWaiter w g)) ∧
      (∀ acts : List Action, some f ∈ getCrashes (run (handleUpload s u).1 acts)) := by
  have htr : (handleUpload s u).2 =
      [.appendRecord (some f), .writeResponse ⟨200, reportId⟩,
       .checkReport reportId, .destroySocket]
      ++ s.waiters.map (fun id => Event.resolveWaiter id f) := by
    simp only [handleUpload, h]
  have hst : (handleUpload s u).1 = { s with
      crashes := s.crashes ++ [some f]
      waiters := []
      resolutions := s.resolutions ++ s.waiters.map (fun id => (id, f)) } := by
    simp only [handleUpload, h]
  refine ⟨1, 3, ?_, ?_, by omega, ?_, by simp [hst], ?_, ?_⟩
  · rw [htr]
    rfl
  · rw [htr]
    simp [List.cons_append, List.getElem?_cons_succ, List.getElem?_cons_zero]
  · intro n w g hn
    rw [htr] at hn
    rcases n with _ | n
    · simp at hn
    rcases n with _ | n
    · simp at hn
    rcases n with _ | n
    · simp at hn
    rcases n with _ | m
    · simp at hn
    · simp only [List.cons_append, List.nil_append,
        List.getElem?_cons_succ, List.getElem?_map] at hn
      cases hm : s.waiters[m]? with
      | none => rw [hm] at hn; simp at hn
      | some id =>
          rw [hm] at hn
          simp only [Option.map_some', Option.some.injEq,
            Event.resolveWaiter.injEq] at hn
          exact ⟨by omega, hn.2.symm⟩
  · intro hw n w g hn
    rw [htr, hw] at hn
    simp only [List.map_nil, List.append_nil] at hn
    rcases n with _ | n
    · simp at hn
    rcases n with _ | n
    · simp at hn
    rcases n with _ | n
    · simp at hn
    rcases n with _ | m
    · simp at hn
    · simp at hn
  · intro acts
    refine crashes_mono_run acts _ _ ?_
    rw [hst]
    exact List.mem_append_right _ (List.mem_singleton.mpr rfl)

/-- Witness for C2: one pending waiter, the round-trip upload. -/
theorem c2_respond_then_destroy_then_notify_witness :
    parseMultipart goodUpload = .ok goodUpload.formFields ∧
    (∃ iResp iDestroy : Nat,
      (handleUpload ⟨[], 1, [0], []⟩ goodUpload).2[iResp]? =
        some (.writeResponse ⟨200, reportId⟩) ∧
      (handleUpload ⟨[], 1, [0], []⟩ goodUpload).2[iDestroy]? = some .destroySocket ∧
      iResp < iDestroy ∧
      (∀ (n w : Nat) (g : Fields),
        (handleUpload ⟨[], 1, [0], []⟩ goodUpload).2[n]? =
          some (.resolveWaiter w g) → iDestroy < n ∧ g = goodUpload.formFields) ∧
      (handleUpload ⟨[], 1, [0], []⟩ goodUpload).1.crashes =
        (⟨[], 1, [0], []⟩ : ServerState).crashes ++ [some goodUpload.formFields] ∧
      ((⟨[], 1, [0], []⟩ : ServerState).waiters = [] →
        ∀ (n w : Nat) (g : Fields),
          (handleUpload ⟨[], 1, [0], []⟩ goodUpload).2[n]? ≠
            some (.resolveWaiter w g)) ∧
      (∀ acts : List Action,
        some goodUpload.formFields ∈
          getCrashes (run (handleUpload ⟨[], 1, [0], []⟩ goodUpload).1 acts))) :=
  ⟨rfl, c2_respond_then_destroy_then_notify ⟨[], 1, [0], []⟩ goodUpload
    goodUpload.formFields rfl⟩

/-- Claim C3: a `waitForCrash()` promise is resolved exactly once — by the
first crash record appended after the call — and with exactly that
record, which is also in the log. -/
theorem c3_wait_then_upload_resolves_once (s s1 : ServerState) (w : Nat)
    (acts : List Action) (f : Fields)
    (hwf : WF s) (h1 : waitForCrash s = (s1, w))
    (hf : firstSuccessFields acts = some f) :
    (run s1 acts).resolutions.filter (fun p => p.1 == w) = [(w, f)] ∧
    some f ∈ getCrashes (run s1 acts) := by
  injection h1 with ha hb
  subst ha hb
  have hc : (s.waiters ++ [s.nextWaiterId]).count s.nextWaiterId = 1 := by
    rw [List.count_append]
    rw [count_eq_zero_of_forall_lt s.nextWaiterId s.waiters hwf.1]
    simp
  have hlt : s.nextWaiterId < s.nextWaiterId + 1 := by omega
  have hp := pending_resolves s.nextWaiterId acts
    { s with
        nextWaiterId := s.nextWaiterId + 1
        waiters := s.waiters ++ [s.nextWaiterId] } f hc hlt hf
  refine ⟨?_, hp.2⟩
  rw [hp.1]
  rw [filter_fst_eq_nil_of_lt s.nextWaiterId s.resolutions hwf.2]
  rfl

/-- Witness for C3: the single-crash round trip — wait, then upload
fields prod = Electron, ver = 1.2.3; the waiter's promise is resolved
exactly once, with that record. -/
theorem c3_wait_then_upload_resolves_once_witness :
    WF initServer ∧
    waitForCrash initServer = (⟨[], 1, [0], []⟩, 0) ∧
    firstSuccessFields [Action.upload goodUpload] = some goodUpload.formFields ∧
    ((run ⟨[], 1, [0], []⟩ [Action.upload goodUpload]).resolutions.filter
        (fun p => p.1 == 0) = [(0, goodUpload.formFields)] ∧
      some goodUpload.formFields ∈
        getCrashes (run ⟨[], 1, [0], []⟩ [Action.upload goodUpload])) ∧
    List.lookup "prod" goodUpload.formFields = some "Electron" ∧
    List.lookup "ver" goodUpload.formFields = some "1.2.3" :=
  ⟨⟨fun id h => absurd h (List.not_mem_nil id),
    fun p h => absurd h (List.not_mem_nil p)⟩, rfl, rfl,
   c3_wait_then_upload_resolves_once initServer ⟨[], 1, [0], []⟩ 0
     [Action.upload goodUpload] goodUpload.formFields
     ⟨fun id h => absurd h (List.not_mem_nil id),
      fun p h => absurd h (List.not_mem_nil p)⟩ rfl rfl,
   rfl, rfl⟩

/-- Claim C10: two `waitForCrash()` calls pending at once are both
resolved by a single subsequent successful upload, each exactly once and
both with the same (the appended) record; neither is rejected or
overwritten. -/
theorem c10_two_waiters_both_resolved (s : ServerState) (u : Upload) (f : Fields)
    (hwf : WF s) (h : parseMultipart u = .ok f) :
    (waitForCrash s).2 ≠ (waitForCrash (waitForCrash s).1).2 ∧
    (handleUpload (waitForCrash (waitForCrash s).1).1 u).1.resolutions.filter
        (fun p => p.1 == (waitForCrash s).2) = [((waitForCrash s).2, f)] ∧
    (handleUpload (waitForCrash (waitForCrash s).1).1 u).1.resolutions.filter
        (fun p => p.1 == (waitForCrash (waitForCrash s).1).2) =
      [((waitForCrash (waitForCrash s).1).2, f)] ∧
    some f ∈ getCrashes (handleUpload (waitForCrash (waitForCrash s).1).1 u).1 ∧
    (handleUpload (waitForCrash (waitForCrash s).1).1 u).1.waiters = [] := by
  have e1 : (waitForCrash s).2 = s.nextWaiterId := rfl
  have e2 : (waitForCrash (waitForCrash s).1).2 = s.nextWaiterId + 1 := rfl
  have e3 : (waitForCrash (waitForCrash s).1).1 = { s with
      nextWaiterId := s.nextWaiterId + 1 + 1
      waiters := s.waiters ++ [s.nextWaiterId] ++ [s.nextWaiterId + 1] } := rfl
  have hup : handleUpload { s with
      nextWaiterId := s.nextWaiterId + 1 + 1
      waiters := s.waiters ++ [s.nextWaiterId] ++ [s.nextWaiterId + 1] } u =
    ({ s with
        nextWaiterId := s.nextWaiterId + 1 + 1
        crashes := s.crashes ++ [some f]
        waiters := []
        resolutions := s.resolutions ++
          (s.waiters ++ [s.nextWaiterId] ++ [s.nextWaiterId + 1]).map
            (fun id => (id, f)) },
     [.appendRecord (some f), .writeResponse ⟨200, reportId⟩,
      .checkReport reportId, .destroySocket]
     ++ (s.waiters ++ [s.nextWaiterId] ++ [s.nextWaiterId + 1]).map
          (fun id => Event.resolveWaiter id f)) := by
    simp only [handleUpload, h]
  rw [e1, e2, e3, hup]
  have hcount1 : (s.waiters ++ [s.nextWaiterId] ++ [s.nextWaiterId + 1]).count
      s.nextWaiterId = 1 := by
    rw [List.count_append, List.count_append]
    rw [count_eq_zero_of_forall_lt s.nextWaiterId s.waiters hwf.1]
    simp
  have hcount2 : (s.waiters ++ [s.nextWaiterId] ++ [s.nextWaiterId + 1]).count
      (s.nextWaiterId + 1) = 1 := by
    rw [List.count_append, List.count_append]
    rw [count_eq_zero_of_forall_lt (s.nextWaiterId + 1) s.waiters
      (fun id hid => Nat.lt_succ_of_lt (hwf.1 id hid))]
    simp
  refine ⟨by omega, ?_, ?_, ?_, rfl⟩
  · show (s.resolutions ++
        (s.waiters ++ [s.nextWaiterId] ++ [s.nextWaiterId + 1]).map
          (fun id => (id, f))).filter (fun p => p.1 == s.nextWaiterId) =
      [(s.nextWaiterId, f)]
    rw [List.filter_append]
    rw [filter_fst_eq_nil_of_lt s.nextWaiterId s.resolutions hwf.2]
    rw [filter_pair_map_count_one s.nextWaiterId f _ hcount1]
    rfl
  · show (s.resolutions ++
        (s.waiters ++ [s.nextWaiterId] ++ [s.nextWaiterId + 1]).map
          (fun id => (id, f))).filter (fun p => p.1 == s.nextWaiterId + 1) =
      [(s.nextWaiterId + 1, f)]
    rw [List.filter_append]
    rw [filter_fst_eq_nil_of_lt (s.nextWaiterId + 1) s.resolutions
      (fun p hp => Nat.lt_succ_of_lt (hwf.2 p hp))]
    rw [filter_pair_map_count_one (s.nextWaiterId + 1) f _ hcount2]
    rfl
  · show some f ∈ s.crashes ++ [some f]
    exact List.mem_append_right _ (List.mem_singleton.mpr rfl)

/-- Witness for C10: two waits on a fresh server, then the round-trip
upload; both promises get the same record. -/
theorem c10_two_waiters_both_resolved_witness :
    WF initServer ∧
    parseMultipart goodUpload = .ok goodUpload.formFields ∧
    ((waitForCrash initServer).2 ≠
        (waitForCrash (waitForCrash initServer).1).2 ∧
      (handleUpload (waitForCrash (waitForCrash initServer).1).1
          goodUpload).1.resolutions.filter
        (fun p => p.1 == (waitForCrash initServer).2) =
        [((waitForCrash initServer).2, goodUpload.formFields)] ∧
      (handleUpload (waitForCrash (waitForCrash initServer).1).1
          goodUpload).1.resolutions.filter
        (fun p => p.1 == (waitForCrash (waitForCrash initServer).1).2) =
        [((waitForCrash (waitForCrash initServer).1).2, goodUpload.formFields)] ∧
      some goodUpload.formFields ∈
        getCrashes (handleUpload (waitForCrash (waitForCrash initServer).1).1
          goodUpload).1 ∧
      (handleUpload (waitForCrash (waitForCrash initServer).1).1
          goodUpload).1.waiters = []) :=
  ⟨⟨fun id h => absurd h (List.not_mem_nil id),
    fun p h => absurd h (List.not_mem_nil p)⟩, rfl,
   c10_two_waiters_both_resolved initServer goodUpload goodUpload.formFields
     ⟨fun id h => absurd h (List.not_mem_nil id),
      fun p h => absurd h (List.not_mem_nil p)⟩ rfl⟩

/-- Counterexample to claim C8 as stated: repeated starts do NOT yield
distinct bound ports.  With an OS that would assign the distinct ephemeral
ports 3000, 3001, ... , two consecutive `startServer` calls both return
port 3000, because the module-level `crashReporterPort` is fixed by the
first call and reused verbatim by the second. -/
theorem c8_counterexample_repeat_start_same_port :
    (runStarts (fun j => 3000 + j) initialGlobal [0, 1]).2 = [3000, 3000] ∧
    ¬ List.Nodup (runStarts (fun j => 3000 + j) initialGlobal [0, 1]).2 := by
  have hports : (runStarts (fun j => 3000 + j) initialGlobal [0, 1]).2 =
      [3000, 3000] := rfl
  refine ⟨hports, ?_⟩
  rw [hports]
  decide

/-- Claim C8 as amended: the first start (requesting port 0) binds an
OS-assigned ephemeral port and returns that valid non-zero port; every
repeated start binds and returns the SAME fixed port recorded by the
first call, not a distinct one. -/
theorem c8_amended_first_ephemeral_then_fixed (os : Nat → Nat) (k : Nat)
    (ks : List Nat) (h : ∀ j, os j ≠ 0) :
    (runStarts os initialGlobal (k :: ks)).2 =
      os k :: List.replicate ks.length (os k) ∧
    os k ≠ 0 := by
  refine ⟨?_, h k⟩
  have h1 := startServer_first os k
  simp only [runStarts, h1]
  rw [runStarts_fixed os ks _ (h k)]

/-- Witness for the amended C8: OS assignment 3000, 3001, ...; the two
calls return 3000 and 3000. -/
theorem c8_amended_first_ephemeral_then_fixed_witness :
    (runStarts (fun j => 3000 + j) initialGlobal (0 :: [1])).2 =
      (fun j : Nat => 3000 + j) 0 ::
        List.replicate [1].length ((fun j : Nat => 3000 + j) 0) ∧
    (fun j : Nat => 3000 + j) 0 ≠ 0 :=
  c8_amended_first_ephemeral_then_fixed (fun j => 3000 + j) 0 [1]
    (fun j => by simp)

/-- Claim C9: `crashReporter.start` is invoked exactly once across all
`startServer` calls — by the first call, which fixes `crashReporterPort`
to the bound port and installs the Umbrella Corporation configuration
with that port in the submit URL; every subsequent call leaves the global
state (and hence the crash-reporter configuration) unchanged and binds
the same fixed port. -/
theorem c9_crash_reporter_configured_once (os : Nat → Nat) (k : Nat)
    (ks : List Nat) (h : ∀ j, os j ≠ 0) :
    (startServer os k initialGlobal).1.reporterStarts = 1 ∧
    (startServer os k initialGlobal).1.reporterConfig =
      some ⟨"Umbrella Corporation", "http://127.0.0.1:" ++ toString (os k)⟩ ∧
    (startServer os k initialGlobal).1.crashReporterPort = os k ∧
    (runStarts os (startServer os k initialGlobal).1 ks).1 =
      (startServer os k initialGlobal).1 ∧
    (runStarts os (startServer os k initialGlobal).1 ks).2 =
      List.replicate ks.length (os k) := by
  have h1 := startServer_first os k
  simp only [h1]
  have hfix := runStarts_fixed os ks
    { crashReporterPort := os k
      reporterConfig := some ⟨"Umbrella Corporation",
        "http://127.0.0.1:" ++ toString (os k)⟩
      reporterStarts := 1 } (h k)
  rw [hfix]
  exact ⟨by simp, by simp, by simp, by simp, by simp⟩

/-- Witness for C9 with OS assignment 3000, 3001, ... and one repeat. -/
theorem c9_crash_reporter_configured_once_witness :
    (startServer (fun j => 3000 + j) 0 initialGlobal).1.reporterStarts = 1 ∧
    (startServer (fun j => 3000 + j) 0 initialGlobal).1.reporterConfig =
      some ⟨"Umbrella Corporation",
        "http://127.0.0.1:" ++ toString ((fun j : Nat => 3000 + j) 0)⟩ ∧
    (startServer (fun j => 3000 + j) 0 initialGlobal).1.crashReporterPort =
      (fun j : Nat => 3000 + j) 0 ∧
    (runStarts (fun j => 3000 + j)
        (startServer (fun j => 3000 + j) 0 initialGlobal).1 [1]).1 =
      (startServer (fun j => 3000 + j) 0 initialGlobal).1 ∧
    (runStarts (fun j => 3000 + j)
        (startServer (fun j => 3000 + j) 0 initialGlobal).1 [1]).2 =
      List.replicate [1].length ((fun j : Nat => 3000 + j) 0) :=
  c9_crash_reporter_configured_once (fun j => 3000 + j) 0 [1] (fun j => by simp)

end CrashServer
